import Mathlib

/-!
# Logger: a shallow embedding of `src/log/logger.{h,cpp}` and `src/log/debug.{h,cpp}`

The embedding follows the Linux build of the library (`Q_OS_LINUX` defined): the
directory separator is `/`, a file opened in text mode stores `\n` as written, and the
colour code of `Logger::log` is compiled in.

Modelling conventions.

* `QString` is `String`; `int` is `Int`, with `++` on an `int` wrapped to 32 bits
  (`wrapInt32`: signed overflow is undefined in C++, and wraps on the compilers Qt
  supports); `unsigned short` is `Nat` reduced modulo `2^16`.
* A `QFile` carries the bytes of the file it names. The only writer of the log file is the
  Logger, which never seeks, so a write lands at the end of the current content.
* Everything a call reads from outside the Logger (the clock, the environment variable,
  the indentation counter, the outcome of a file-system request) is an explicit argument.
* The mutexes are not modelled: every function is one atomic step.
-/

namespace LoggerModel

/-! ## `enum LogLevel` (logger.h) -/

/-- The enumeration `LogLevel` of logger.h, in declaration order. -/
inductive LogLevel where
  | DEBUG
  | INFO
  | WARNING
  | CRITICAL
  | NONE
  deriving DecidableEq

/-- The integer value of an enumerator: `DEBUG = 0`, ..., `NONE = 4`. -/
def LogLevel.toNat : LogLevel → Nat
  | .DEBUG => 0
  | .INFO => 1
  | .WARNING => 2
  | .CRITICAL => 3
  | .NONE => 4

instance : LT LogLevel := ⟨fun a b => a.toNat < b.toNat⟩

instance : LE LogLevel := ⟨fun a b => a.toNat ≤ b.toNat⟩

instance (a b : LogLevel) : Decidable (a < b) := Nat.decLt a.toNat b.toNat

instance (a b : LogLevel) : Decidable (a ≤ b) := Nat.decLe a.toNat b.toNat

/-- The cast `(LogLevel)i` of the constructor's decoding loop, for `0 ≤ i < 5`. -/
def LogLevel.ofNat? : Nat → Option LogLevel
  | 0 => some .DEBUG
  | 1 => some .INFO
  | 2 => some .WARNING
  | 3 => some .CRITICAL
  | 4 => some .NONE
  | _ => none

/-! ## Machine integers -/

/-- Two's complement reduction of an integer to the range of a 32-bit `int`. -/
def wrapInt32 (x : Int) : Int := (x + 2147483648) % 4294967296 - 2147483648

/-- Reduction of a natural number to the range of a 16-bit `unsigned short`. -/
def wrapUInt16 (x : Nat) : Nat := x % 65536

/-! ## `Debug::Indent` (debug.h, debug.cpp) -/

namespace Indent

/-- The constant `SPACES_PER_LEVEL`. -/
def SPACES_PER_LEVEL : Nat := 2

/-- The initial value of the static `numSpaces`. -/
def initial : Nat := 0

/-- The function `Indent::push`: `numSpaces += SPACES_PER_LEVEL` on an `unsigned short`. -/
def push (numSpaces : Nat) : Nat := wrapUInt16 (numSpaces + SPACES_PER_LEVEL)

/-- The function `Indent::pop`: `numSpaces -= SPACES_PER_LEVEL` on an `unsigned short`. -/
def pop (numSpaces : Nat) : Nat := wrapUInt16 (numSpaces + 65536 - SPACES_PER_LEVEL)

/-- The function `Indent::getIndent`. -/
def getIndent (numSpaces : Nat) : Nat := numSpaces

/-- The function `Indent::reset`. -/
def reset (_numSpaces : Nat) : Nat := 0

end Indent

/-! ## The Logger object -/

/-- The part of a `QFile` the Logger uses: its name, whether it is open, and the bytes of
the file it names. -/
structure QFile where
  fileName : String
  isOpen : Bool
  content : String
  deriving DecidableEq

/-- A Qt message handler (a function pointer): the handler Qt starts with, the Logger's
own `logMessageHandler`, or some other function. -/
inductive QtMsgHandler where
  | qtDefault
  | logMessageHandler
  | other (id : Nat)
  deriving DecidableEq

/-- The non-static data members of `class Logger`. -/
structure Logger where
  logFile : QFile
  m_logThreshold : LogLevel
  oldHandler : QtMsgHandler
  m_logToConsole : Bool
  m_logLimit : Int
  m_linesLogged : Int
  deriving DecidableEq

/-- The three keys the Logger keeps in `QSettings`; `none` is an unset key. -/
structure QSettings where
  log_path : Option String
  log_filename : Option String
  log_threshold : Option String
  deriving DecidableEq

/-- The static table `col[4]` of terminal colours. -/
def col : List String := ["01;30", "1", "00;33", "01;31"]

/-- What one `log` call reads from outside the Logger. -/
structure LogEnv where
  /-- The value of `QTime::currentTime().toString()`, of the form `HH:MM:SS`. -/
  time : String
  /-- The value of `Debug::Indent::getIndent()`. -/
  numSpaces : Nat
  /-- The value of `qgetenv("LOG_COLOR")`. -/
  logColor : String
  /-- The result `logFile.resize(0)` gives if it is called. -/
  resizeOk : Bool
  deriving DecidableEq

/-- What one `log` call leaves behind. -/
structure LogResult where
  /-- The Logger after the call. -/
  logger : Logger
  /-- The bytes the call sent to `std::cerr`. -/
  cerr : String
  /-- The index at which the call read the table `col`, if it read it. -/
  colIndex : Option Nat
  deriving DecidableEq

/-- The argument of `output +=` in the `switch(level)` of `Logger::log`. -/
def levelLabel (numSpaces : Nat) : LogLevel → String
  | .DEBUG => "[DEBUG]    " ++ String.mk (List.replicate numSpaces ' ')
  | .INFO => "[INFO]     "
  | .WARNING => "[WARNING]  "
  | .CRITICAL => "[CRITICAL] "
  | .NONE => ""

/-- The string `output` of `Logger::log` at the point where it is sent to the file. -/
def formatLine (env : LogEnv) (level : LogLevel) (message : String) : String :=
  "[" ++ env.time ++ "] " ++ levelLabel env.numSpaces level ++ (message ++ "\n")

/-- The string `output` of `Logger::log` at the point where it is sent to `std::cerr`. -/
def consoleLine (env : LogEnv) (level : LogLevel) (message : String) : String :=
  if env.logColor.isEmpty then formatLine env level message
  else "\x1b[" ++ col.getD level.toNat "" ++ "m" ++ formatLine env level message ++ "\x1b[00;39m"

/-- The function `Logger::log`. -/
def Logger.log (self : Logger) (env : LogEnv) (level : LogLevel) (message : String) :
    LogResult :=
  if !self.logFile.isOpen then ⟨self, "", none⟩
  else if level < self.m_logThreshold then ⟨self, "", none⟩
  else
    -- shall we limit the logfile?
    let truncated : Option Logger :=
      if self.m_logLimit ≠ 0 ∧ self.m_linesLogged ≥ self.m_logLimit then
        if !env.resizeOk then none
        else some { self with logFile := { self.logFile with content := "" },
                              m_linesLogged := 0 }
      else some self
    match truncated with
    | none => ⟨self, "", none⟩
    | some s1 =>
      let s2 : Logger := { s1 with m_linesLogged := wrapInt32 (s1.m_linesLogged + 1) }
      let output := formatLine env level message
      let s3 : Logger :=
        { s2 with logFile := { s2.logFile with content := s2.logFile.content ++ output } }
      ⟨s3, if self.m_logToConsole then consoleLine env level message else "",
        if env.logColor.isEmpty then none else some level.toNat⟩

/-! ## Setters and getters -/

/-- What one `setLogPath` call reads from the file system. A file can be opened only in
a directory that exists, so the open request is granted only when the directory was there
or `mkpath` made it. -/
structure OpenEnv where
  /-- The value of `logDir.exists()`. -/
  dirExists : Bool
  /-- The result `logDir.mkpath(dir)` gives if it is called. -/
  mkpathOk : Bool
  /-- Whether the file system grants the open request once the directory exists. -/
  openOk : Bool
  /-- The bytes stored under the new file name before the call. -/
  existing : String
  deriving DecidableEq

/-- Whether `logFile.open(ReadWrite | Text | Truncate)` succeeds in `setLogPath`. -/
def OpenEnv.opens (env : OpenEnv) : Bool := (env.dirExists || env.mkpathOk) && env.openOk

/-- The function `Logger::setLogPath`. -/
def Logger.setLogPath (self : Logger) (settings : QSettings) (env : OpenEnv)
    (dir filename : String) : Logger × QSettings :=
  -- if(logFile.isOpen()) logFile.close();
  let closed : QFile :=
    if self.logFile.isOpen then { self.logFile with isOpen := false } else self.logFile
  -- logFile.setFileName(dir + QDir::separator() + filename);
  let named : QFile :=
    { closed with fileName := dir ++ "/" ++ filename, content := env.existing }
  -- logFile.open(QIODevice::ReadWrite | QIODevice::Text | QIODevice::Truncate);
  let opened : QFile :=
    if env.opens then { named with isOpen := true, content := "" } else named
  ({ self with logFile := opened },
   { settings with log_path := some dir, log_filename := some filename })

/-- The function `Logger::logPath`. -/
def Logger.logPath (_self : Logger) (settings : QSettings) : String :=
  settings.log_path.getD ""

/-- The function `Logger::logFilename`. -/
def Logger.logFilename (_self : Logger) (settings : QSettings) : String :=
  settings.log_filename.getD ""

/-- The string chosen by the `switch(m_logThreshold)` of `Logger::setLogThreshold`. -/
def thresholdName : LogLevel → String
  | .DEBUG => "DEBUG"
  | .INFO => "INFO"
  | .WARNING => "WARNING"
  | .CRITICAL => "CRITICAL"
  | .NONE => "NONE"

/-- The function `Logger::setLogThreshold`. -/
def Logger.setLogThreshold (self : Logger) (settings : QSettings) (level : LogLevel) :
    Logger × QSettings :=
  ({ self with m_logThreshold := level },
   { settings with log_threshold := some (thresholdName level) })

/-- The function `Logger::logThreshold`. -/
def Logger.logThreshold (self : Logger) : LogLevel := self.m_logThreshold

/-- The function `Logger::setLogToConsole`. -/
def Logger.setLogToConsole (self : Logger) (enabled : Bool) : Logger :=
  { self with m_logToConsole := enabled }

/-- The function `Logger::logToConsole`. -/
def Logger.logToConsole (self : Logger) : Bool := self.m_logToConsole

/-- The function `Logger::setLogLimit`. -/
def Logger.setLogLimit (self : Logger) (numLines : Int) : Logger :=
  { self with m_logLimit := numLines }

/-- The function `Logger::logLimit`. -/
def Logger.logLimit (self : Logger) : Int := self.m_logLimit

/-! ## Constructor, destructor and the singleton -/

/-- The array `comp` of the constructor. -/
def comp : List String := ["DEBUG", "INFO", "WARNING", "CRITICAL", "NONE"]

/-- The loop `for(int i = 0; i < 5; i++)` of the constructor, run over the remaining
entries of `comp` from index `i` on: the first entry equal to `threshold` sets the
threshold to `(LogLevel)i` and leaves the loop. -/
def decodeLoop (threshold : String) (current : LogLevel) (i : Nat) : List String → LogLevel
  | [] => current
  | c :: rest =>
    if threshold = c then (LogLevel.ofNat? i).getD current
    else decodeLoop threshold current (i + 1) rest

/-- What the constructor reads from outside the Logger. -/
structure CtorEnv where
  /-- The value of `QDir::homePath()`. -/
  homePath : String
  /-- The value of `QCoreApplication::applicationName()`. -/
  applicationName : String
  /-- The file system as seen by the `setLogPath` call of the constructor. -/
  fs : OpenEnv
  deriving DecidableEq

/-- The function `Logger::Logger`, given the persisted settings and the message handler installed at
the time; returns the new object, the settings and the handler installed afterwards. -/
def Logger.new (settings : QSettings) (installed : QtMsgHandler) (env : CtorEnv) :
    Logger × QSettings × QtMsgHandler :=
  let self0 : Logger :=
    { logFile := { fileName := "", isOpen := false, content := "" },
      m_logThreshold := .NONE,
      oldHandler := installed,
      m_logToConsole := true,
      m_logLimit := 0,
      m_linesLogged := 0 }
  let path := settings.log_path.getD (env.homePath ++ "/" ++ "." ++ env.applicationName)
  let filename := settings.log_filename.getD (env.applicationName ++ ".log")
  let threshold := settings.log_threshold.getD "WARNING"
  let r := self0.setLogPath settings env.fs path filename
  let self1 : Logger := { r.1 with m_logThreshold := decodeLoop threshold r.1.m_logThreshold 0 comp }
  -- oldHandler = qInstallMsgHandler(Logger::logMessageHandler);
  (self1, r.2, .logMessageHandler)

/-- The function `Logger::~Logger`: returns the object as it is when its members are destroyed, and
the message handler installed afterwards. -/
def Logger.destructor (self : Logger) : Logger × QtMsgHandler :=
  let closed : Logger :=
    if self.logFile.isOpen then { self with logFile := { self.logFile with isOpen := false } }
    else self
  (closed, self.oldHandler)

/-- The process-wide state the Logger lives in: the static `_instance`, the persisted
settings, the installed Qt message handler, and the bytes sent to `std::cerr`. -/
structure Process where
  _instance : Option Logger
  settings : QSettings
  msgHandler : QtMsgHandler
  cerr : String
  deriving DecidableEq

/-- The function `Logger::instance`. -/
def Logger.instance_ (p : Process) (env : CtorEnv) : Process :=
  match p._instance with
  | some _ => p
  | none =>
    let r := Logger.new p.settings p.msgHandler env
    { p with _instance := some r.1, settings := r.2.1, msgHandler := r.2.2 }

/-- The function `Logger::close`: `delete _instance; _instance = 0;`. The function reads no member of
the object it is called on, so it is a function of the process state alone. -/
def Logger.close (p : Process) : Process :=
  match p._instance with
  | none => { p with _instance := none }
  | some l => { p with _instance := none, msgHandler := l.destructor.2 }

/-! ## Sequences of calls on one Logger -/

/-- One call on a Logger, with what the call reads from outside. -/
inductive Op where
  | log (env : LogEnv) (level : LogLevel) (message : String)
  | setLogLimit (numLines : Int)
  | setLogThreshold (level : LogLevel)
  | setLogToConsole (enabled : Bool)
  | setLogPath (env : OpenEnv) (dir filename : String)
  deriving DecidableEq

/-- A Logger together with the settings store and the bytes sent to `std::cerr`. -/
structure World where
  logger : Logger
  settings : QSettings
  cerr : String
  deriving DecidableEq

/-- The effect of one call. -/
def World.step (w : World) : Op → World
  | .log env level message =>
    let r := w.logger.log env level message
    { w with logger := r.logger, cerr := w.cerr ++ r.cerr }
  | .setLogLimit numLines => { w with logger := w.logger.setLogLimit numLines }
  | .setLogThreshold level =>
    let r := w.logger.setLogThreshold w.settings level
    { w with logger := r.1, settings := r.2 }
  | .setLogToConsole enabled => { w with logger := w.logger.setLogToConsole enabled }
  | .setLogPath env dir filename =>
    let r := w.logger.setLogPath w.settings env dir filename
    { w with logger := r.1, settings := r.2 }

/-- The effect of a sequence of calls, first call first. -/
def World.run (w : World) (ops : List Op) : World := ops.foldl World.step w

/-- The world right after `Logger::Logger` has run. -/
def World.fresh (settings : QSettings) (installed : QtMsgHandler) (env : CtorEnv) : World :=
  let r := Logger.new settings installed env
  { logger := r.1, settings := r.2.1, cerr := "" }

/-- A sequence of `log` calls on one Logger, first call first. -/
def Logger.logAll (self : Logger) : List (LogEnv × LogLevel × String) → Logger
  | [] => self
  | (env, level, message) :: rest => (self.log env level message).logger.logAll rest

/-- The lines a sequence of `log` calls formats, concatenated in call order. -/
def formatAll : List (LogEnv × LogLevel × String) → String
  | [] => ""
  | (env, level, message) :: rest => formatLine env level message ++ formatAll rest

/-! ## The line format as the specification words it -/

/-- The label the specification gives each of the four message levels, padded to a common
width. -/
def specLabel : LogLevel → String
  | .DEBUG => "[DEBUG]    "
  | .INFO => "[INFO]     "
  | .WARNING => "[WARNING]  "
  | .CRITICAL => "[CRITICAL] "
  | .NONE => ""

/-- The indentation the specification gives a line: `getIndent()` spaces for `DEBUG`,
nothing for every other level. -/
def specIndent (numSpaces : Nat) : LogLevel → String
  | .DEBUG => String.mk (List.replicate (Indent.getIndent numSpaces) ' ')
  | _ => ""

/-! ## Sequences of calls that respect the line limit -/

/-- Whether no `setLogLimit(n)` call of the sequence sets a positive limit below the number
of lines logged at the time of the call. -/
def World.limitsCoverCount (w : World) : List Op → Bool
  | [] => true
  | op :: rest =>
    (match op with
      | .setLogLimit numLines => decide (numLines ≤ 0 ∨ w.logger.m_linesLogged ≤ numLines)
      | _ => true)
    && (w.step op).limitsCoverCount rest

/-! ## The ambient message channel -/

/-- The enumeration `QtMsgType`, as the `switch` of `Logger::logMessageHandler` reads it. -/
inductive QtMsgType where
  | QtDebugMsg
  | QtWarningMsg
  | QtCriticalMsg
  | QtFatalMsg
  deriving DecidableEq

/-- A call the message handler makes: `instance()->log(level, message)` or
`QCoreApplication::quit()`. -/
inductive HandlerCall where
  | log (level : LogLevel) (message : String)
  | quit
  deriving DecidableEq

/-- What one run of the message handler leaves behind: the process state, and the calls
the handler made, first call first. -/
structure HandlerResult where
  process : Process
  calls : List HandlerCall
  deriving DecidableEq

/-- The number of `Logger` objects a call of `Logger::instance` constructs in the process
`p`: `new Logger()` runs exactly when `_instance == 0`. -/
def Logger.instanceConstructs (p : Process) : Nat :=
  match p._instance with
  | some _ => 0
  | none => 1

/-- The statement `instance()->log(level, message)`, run in the process `p`. -/
def Logger.instanceLog (p : Process) (cenv : CtorEnv) (env : LogEnv) (level : LogLevel)
    (message : String) : Process :=
  let p1 := Logger.instance_ p cenv
  match p1._instance with
  | none => p1
  | some l =>
    let r := l.log env level message
    { p1 with _instance := some r.logger, cerr := p1.cerr ++ r.cerr }

/-- The statement `instance()->log(level, message)` of the message handler, run after the
calls made so far: the call is made on the process and added to the calls made. -/
def HandlerResult.instanceLog (r : HandlerResult) (cenv : CtorEnv) (env : LogEnv)
    (level : LogLevel) (message : String) : HandlerResult :=
  { process := Logger.instanceLog r.process cenv env level message,
    calls := r.calls ++ [.log level message] }

/-- The statement `QCoreApplication::quit()` of the message handler, run after the calls
made so far: the process state is left alone, the call is added to the calls made. -/
def HandlerResult.quit (r : HandlerResult) : HandlerResult :=
  { r with calls := r.calls ++ [.quit] }

/-- The function `Logger::logMessageHandler`, entered in the process `p` with no call made
yet. -/
def Logger.logMessageHandler (p : Process) (cenv : CtorEnv) (env : LogEnv)
    (type : QtMsgType) (msg : String) : HandlerResult :=
  let entry : HandlerResult := { process := p, calls := [] }
  match type with
  | .QtDebugMsg => entry.instanceLog cenv env .DEBUG msg
  | .QtWarningMsg => entry.instanceLog cenv env .WARNING msg
  | .QtCriticalMsg => entry.instanceLog cenv env .CRITICAL msg
  | .QtFatalMsg =>
    -- Fatal error, kill the application
    (entry.instanceLog cenv env .CRITICAL msg).quit

/-- The level the specification gives each kind of ambient message. -/
def specLevelOf : QtMsgType → LogLevel
  | .QtDebugMsg => .DEBUG
  | .QtWarningMsg => .WARNING
  | .QtCriticalMsg => .CRITICAL
  | .QtFatalMsg => .CRITICAL

/-- The number of lines the specification gives the file after `k` passing calls under a
limit `N ≥ 1`: none before the first call, then `((k - 1) mod N) + 1`. -/
def specLineCount (N k : Nat) : Nat := if k = 0 then 0 else (k - 1) % N + 1

/-! ## Concrete states used as examples -/

/-- A Logger as the test suite sets it up: file open and empty, threshold `DEBUG`. -/
def testLogger : Logger :=
  { logFile := { fileName := "/tmp/test_logger.log", isOpen := true, content := "" },
    m_logThreshold := .DEBUG,
    oldHandler := .qtDefault,
    m_logToConsole := true,
    m_logLimit := 0,
    m_linesLogged := 0 }

/-- A clock reading with no indentation, no `LOG_COLOR`, and a file system on which
`resize` succeeds. -/
def noon : LogEnv := { time := "12:00:00", numSpaces := 0, logColor := "", resizeOk := true }

/-- The same clock reading on a file system on which `resize` fails. -/
def noonResizeFails : LogEnv := { noon with resizeOk := false }

/-- A file system on which the log directory exists and the file can be opened. -/
def goodDisk : OpenEnv := { dirExists := true, mkpathOk := true, openOk := true, existing := "" }

/-- An application run by user `u`, with `goodDisk` as its file system. -/
def testApp : CtorEnv := { homePath := "/home/u", applicationName := "app", fs := goodDisk }

/-- A settings store with no key set. -/
def noSettings : QSettings := { log_path := none, log_filename := none, log_threshold := none }

/-- Six `DEBUG` messages as the test of the line limit sends them: five, then one more. -/
def fiveMessages : List (LogEnv × LogLevel × String) :=
  List.replicate 5 (noon, LogLevel.DEBUG, "testmessage ")

/-- Two `CRITICAL` messages logged without a limit, then `setLogLimit(1)`. -/
def lowerLimitAfterTwoLines : List Op :=
  [.log noon .CRITICAL "a", .log noon .CRITICAL "b", .setLogLimit 1]

/-- A sequence of calls that sets the limit first and then logs past it. -/
def limitThenThreeLines : List Op :=
  [.setLogLimit 2, .log noon .CRITICAL "a", .log noon .CRITICAL "b",
   .setLogToConsole false, .log noon .CRITICAL "c"]

/-- The test Logger with the threshold `NONE`. -/
def silencedLogger : Logger := { testLogger with m_logThreshold := .NONE }

/-- The test Logger with the default threshold `WARNING`. -/
def warningLogger : Logger := { testLogger with m_logThreshold := .WARNING }

/-- The clock reading `noon` with `LOG_COLOR` set. -/
def noonColour : LogEnv := { noon with logColor := "1" }

/-- The test Logger at its limit: five lines logged under a limit of five. -/
def fullLogger : Logger :=
  { testLogger with
    logFile := { testLogger.logFile with content := formatAll fiveMessages },
    m_logLimit := 5,
    m_linesLogged := 5 }

/-- A file system on which the log directory is missing and cannot be made. -/
def noDirectory : OpenEnv :=
  { dirExists := false, mkpathOk := false, openOk := true, existing := "" }

/-- A file system on which the log directory exists but the file cannot be opened. -/
def readOnlyDisk : OpenEnv :=
  { dirExists := true, mkpathOk := true, openOk := false, existing := "kept" }

/-- A process in which a Logger exists, installed over the default message handler. -/
def runningProcess : Process :=
  { _instance := some testLogger, settings := noSettings, msgHandler := .logMessageHandler,
    cerr := "" }

/-- A process in which no Logger exists. -/
def idleProcess : Process :=
  { _instance := none, settings := noSettings, msgHandler := .qtDefault, cerr := "" }

/-- A Logger that has logged one line into a file that held older lines, with console
echo off and a limit of nine. -/
def usedLogger : Logger :=
  { logFile := { fileName := "/tmp/test_logger.log", isOpen := true, content := "old\n" },
    m_logThreshold := .DEBUG,
    oldHandler := .other 7,
    m_logToConsole := false,
    m_logLimit := 9,
    m_linesLogged := 1 }

/-- A process whose Logger is `usedLogger`. -/
def usedProcess : Process :=
  { _instance := some usedLogger, settings := noSettings, msgHandler := .logMessageHandler,
    cerr := "" }

/-- One `CRITICAL` message logged, then `setLogPath` to another file, which opens. -/
def logThenReopen : List Op :=
  [.log noon .CRITICAL "a", .setLogPath goodDisk "/tmp" "other.log"]

/-- Seven `DEBUG` messages, numbered, each with a `resize` that succeeds. -/
def sevenMessages : List (LogEnv × LogLevel × String) :=
  [(noon, .DEBUG, "1"), (noon, .DEBUG, "2"), (noon, .DEBUG, "3"), (noon, .DEBUG, "4"),
   (noon, .DEBUG, "5"), (noon, .DEBUG, "6"), (noon, .DEBUG, "7")]

/-! ## Theorems -/

/-- C1: with the file open, a message whose level is below the threshold is dropped: the
Logger (file content, `linesLogged` and every other field) is unchanged, nothing goes to
the console, and the colour table is not read. -/
theorem log_below_threshold_is_noop (self : Logger) (env : LogEnv) (level : LogLevel)
    (message : String) (hopen : self.logFile.isOpen = true)
    (hlt : level < self.m_logThreshold) :
    self.log env level message = ⟨self, "", none⟩ := by
  unfold Logger.log
  simp [hopen, hlt]

theorem log_below_threshold_is_noop_witness :
    (Logger.mk ⟨"/tmp/test_logger.log", true, "old\n"⟩ .INFO .qtDefault true 5 5).log
        ⟨"12:00:00", 2, "1", true⟩ .DEBUG "more testmessages"
      = ⟨Logger.mk ⟨"/tmp/test_logger.log", true, "old\n"⟩ .INFO .qtDefault true 5 5, "", none⟩ :=
  log_below_threshold_is_noop _ _ _ _ (by decide) (by decide)

/-- C2: for a level among `DEBUG`, `INFO`, `WARNING`, `CRITICAL` that is not below the
threshold, with the file open and the line limit not reached (the limit is 0, or fewer
lines than the limit have been logged), `log` appends to the file exactly the line
`[` time `] ` label indent message newline; every label is 11 characters wide; and the
appended line is the same whatever the console flag and the value of `LOG_COLOR`. -/
theorem log_appends_formatted_line (self : Logger) (env : LogEnv) (level : LogLevel)
    (message : String) (hlevel : level ≠ .NONE) (hopen : self.logFile.isOpen = true)
    (hge : self.m_logThreshold ≤ level)
    (hlimit : self.m_logLimit = 0 ∨ self.m_linesLogged < self.m_logLimit) :
    (∀ l : LogLevel, l ≠ .NONE → (specLabel l).length = 11) ∧
    ∀ (console : Bool) (logColor : String),
      (({ self with m_logToConsole := console }).log { env with logColor := logColor }
          level message).logger.logFile.content
        = self.logFile.content ++
            ("[" ++ env.time ++ "] " ++ specLabel level ++ specIndent env.numSpaces level
              ++ message ++ "\n") := by
  have hnlt : ¬ level < self.m_logThreshold := fun h => absurd hge (Nat.not_le.mpr h)
  have hnotrunc : ¬ (self.m_logLimit ≠ 0 ∧ self.m_linesLogged ≥ self.m_logLimit) := by
    rintro ⟨h0, h1⟩
    rcases hlimit with h | h
    · exact h0 h
    · exact absurd h1 (not_le.mpr h)
  refine ⟨?_, ?_⟩
  · intro l hl
    cases l <;> first | rfl | exact absurd rfl hl
  · intro console logColor
    unfold Logger.log
    simp only [hopen, hnlt, hnotrunc]
    cases level <;>
      first
      | exact absurd rfl hlevel
      | simp only [formatLine, levelLabel, specLabel, specIndent, Indent.getIndent,
          String.append_assoc, String.empty_append, ite_false, ite_true, if_false,
          not_false_eq_true, Bool.not_true, Bool.false_eq_true]

theorem log_appends_formatted_line_witness :
    (∀ l : LogLevel, l ≠ .NONE → (specLabel l).length = 11) ∧
    ∀ (console : Bool) (logColor : String),
      (({ Logger.mk ⟨"/tmp/test_logger.log", true, "old\n"⟩ .DEBUG .qtDefault true 5 4 with
            m_logToConsole := console }).log
          { (⟨"12:00:00", 2, "", true⟩ : LogEnv) with logColor := logColor }
          .DEBUG "testmessage").logger.logFile.content
        = "old\n" ++ ("[" ++ "12:00:00" ++ "] " ++ specLabel .DEBUG ++ specIndent 2 .DEBUG
              ++ "testmessage" ++ "\n") :=
  log_appends_formatted_line (Logger.mk ⟨"/tmp/test_logger.log", true, "old\n"⟩ .DEBUG
    .qtDefault true 5 4) ⟨"12:00:00", 2, "", true⟩ .DEBUG "testmessage" (by decide) rfl
    (by decide) (Or.inr (by decide))

/-! ### Helper lemmas on `log` -/

theorem wrapInt32_of_inRange (x : Int) (hlo : -2147483648 ≤ x) (hhi : x < 2147483648) :
    wrapInt32 x = x := by
  unfold wrapInt32
  omega

theorem wrapInt32_ge (x : Int) : -2147483648 ≤ wrapInt32 x := by
  unfold wrapInt32
  omega

theorem wrapInt32_le_self (x : Int) (hlo : -2147483648 ≤ x) : wrapInt32 x ≤ x := by
  unfold wrapInt32
  omega

/-- A passing call that finds the limit not reached appends its line and counts it. -/
theorem log_of_pass_below_limit (self : Logger) (env : LogEnv) (level : LogLevel)
    (message : String) (hopen : self.logFile.isOpen = true)
    (hpass : self.m_logThreshold ≤ level)
    (hlimit : self.m_logLimit = 0 ∨ self.m_linesLogged < self.m_logLimit) :
    (self.log env level message).logger =
      { self with
        logFile := { self.logFile with
          content := self.logFile.content ++ formatLine env level message },
        m_linesLogged := wrapInt32 (self.m_linesLogged + 1) } := by
  have hnlt : ¬ level < self.m_logThreshold := fun h => absurd hpass (Nat.not_le.mpr h)
  have hnotrunc : ¬ (self.m_logLimit ≠ 0 ∧ self.m_linesLogged ≥ self.m_logLimit) := by
    rintro ⟨h0, h1⟩
    rcases hlimit with h | h
    · exact h0 h
    · exact absurd h1 (not_le.mpr h)
  unfold Logger.log
  simp [hopen, hnlt, hlimit, hnotrunc]

/-- A passing call that finds the limit reached, with `resize` succeeding, empties the
file, writes its line and sets the count to one. -/
theorem log_of_pass_at_limit (self : Logger) (env : LogEnv) (level : LogLevel)
    (message : String) (hopen : self.logFile.isOpen = true)
    (hpass : self.m_logThreshold ≤ level)
    (hlimit : self.m_logLimit ≠ 0) (hreached : self.m_logLimit ≤ self.m_linesLogged)
    (hresize : env.resizeOk = true) :
    (self.log env level message).logger =
      { self with
        logFile := { self.logFile with content := formatLine env level message },
        m_linesLogged := 1 } := by
  have hnlt : ¬ level < self.m_logThreshold := fun h => absurd hpass (Nat.not_le.mpr h)
  have htrunc : self.m_logLimit ≠ 0 ∧ self.m_linesLogged ≥ self.m_logLimit :=
    ⟨hlimit, hreached⟩
  unfold Logger.log
  simp [hopen, hnlt, hlimit, hreached, hresize, wrapInt32]

/-- While the limit is not reached, a run of passing calls appends all its lines. -/
theorem logAll_below_limit (calls : List (LogEnv × LogLevel × String)) :
    ∀ (self : Logger), self.logFile.isOpen = true →
      (∀ c ∈ calls, self.m_logThreshold ≤ c.2.1) →
      0 ≤ self.m_linesLogged →
      self.m_linesLogged + calls.length ≤ self.m_logLimit →
      self.m_logLimit < 2147483648 →
      self.logAll calls =
        { self with
          logFile := { self.logFile with content := self.logFile.content ++ formatAll calls },
          m_linesLogged := self.m_linesLogged + calls.length } := by
  induction calls with
  | nil =>
    intro self _ _ _ _ _
    simp [Logger.logAll, formatAll]
  | cons c rest ih =>
    intro self hopen hpass h0 hlen h32
    obtain ⟨env, level, message⟩ := c
    have hlen1 : self.m_linesLogged + ((rest.length : Int) + 1) ≤ self.m_logLimit := by
      simpa using hlen
    have hstep := log_of_pass_below_limit self env level message hopen
      (hpass _ (List.mem_cons_self _ _)) (Or.inr (by omega))
    rw [wrapInt32_of_inRange _ (by omega) (by omega)] at hstep
    have hrest := ih (self.log env level message).logger (by rw [hstep]; exact hopen)
      (by rw [hstep]; exact fun c hc => hpass c (List.mem_cons_of_mem _ hc))
      (by rw [hstep]; show 0 ≤ self.m_linesLogged + 1; omega)
      (by rw [hstep]; show self.m_linesLogged + 1 + (rest.length : Int) ≤ self.m_logLimit
          omega)
      (by rw [hstep]; exact h32)
    simp only [Logger.logAll, formatAll]
    rw [hrest, hstep]
    simp only [String.append_assoc, List.length_cons, Nat.cast_add, Nat.cast_one]
    congr 1
    omega

/-- A call on a closed file changes nothing. -/
theorem log_of_closed (self : Logger) (env : LogEnv) (level : LogLevel) (message : String)
    (hclosed : self.logFile.isOpen = false) :
    self.log env level message = ⟨self, "", none⟩ := by
  unfold Logger.log
  simp [hclosed]

/-- A call whose truncation is refused changes nothing. -/
theorem log_of_resize_failure (self : Logger) (env : LogEnv) (level : LogLevel)
    (message : String) (hlimit : self.m_logLimit ≠ 0)
    (hreached : self.m_logLimit ≤ self.m_linesLogged) (hresize : env.resizeOk = false) :
    self.log env level message = ⟨self, "", none⟩ := by
  unfold Logger.log
  by_cases hopen : self.logFile.isOpen = true
  · by_cases hlt : level < self.m_logThreshold
    · simp [hopen, hlt]
    · simp [hopen, hlt, hlimit, hreached, hresize]
  · simp [hopen]

/-- The bound `linesLogged ≤ logLimit` (for a positive limit), together with the lower
end of the `int` range, is kept by every `log` call, and `log` leaves the limit alone. -/
theorem log_keeps_bound (self : Logger) (env : LogEnv) (level : LogLevel) (message : String)
    (hlo : -2147483648 ≤ self.m_linesLogged)
    (hbound : 0 < self.m_logLimit → self.m_linesLogged ≤ self.m_logLimit) :
    (self.log env level message).logger.m_logLimit = self.m_logLimit ∧
    -2147483648 ≤ (self.log env level message).logger.m_linesLogged ∧
    (0 < self.m_logLimit →
      (self.log env level message).logger.m_linesLogged ≤ self.m_logLimit) := by
  by_cases hopen : self.logFile.isOpen = true
  swap
  · rw [log_of_closed self env level message (by simpa using hopen)]
    exact ⟨rfl, hlo, hbound⟩
  by_cases hlt : level < self.m_logThreshold
  · have hnoop : self.log env level message = ⟨self, "", none⟩ := by
      unfold Logger.log
      simp [hopen, hlt]
    rw [hnoop]
    exact ⟨rfl, hlo, hbound⟩
  have hpass : self.m_logThreshold ≤ level := Nat.not_lt.mp hlt
  by_cases htrunc : self.m_logLimit ≠ 0 ∧ self.m_logLimit ≤ self.m_linesLogged
  · by_cases hresize : env.resizeOk = true
    · rw [log_of_pass_at_limit self env level message hopen hpass htrunc.1 htrunc.2 hresize]
      refine ⟨rfl, ?_, ?_⟩
      · show (-2147483648 : Int) ≤ 1
        omega
      · intro hpos
        show (1 : Int) ≤ self.m_logLimit
        omega
    · rw [log_of_resize_failure self env level message htrunc.1 htrunc.2
        (by simpa using hresize)]
      exact ⟨rfl, hlo, hbound⟩
  · have hbelow : self.m_logLimit = 0 ∨ self.m_linesLogged < self.m_logLimit := by
      by_cases h0 : self.m_logLimit = 0
      · exact Or.inl h0
      · exact Or.inr (not_le.mp fun h => htrunc ⟨h0, h⟩)
    rw [log_of_pass_below_limit self env level message hopen hpass hbelow]
    refine ⟨rfl, wrapInt32_ge _, ?_⟩
    intro hpos
    show wrapInt32 (self.m_linesLogged + 1) ≤ self.m_logLimit
    have hle := wrapInt32_le_self (self.m_linesLogged + 1) (by omega)
    rcases hbelow with h | h <;> omega

/-- One call of a sequence keeps the bound, if it is not a `setLogLimit` that sets a
positive limit below the number of lines logged. -/
theorem step_keeps_bound (w : World) (op : Op)
    (hcover : w.limitsCoverCount [op] = true)
    (hlo : -2147483648 ≤ w.logger.m_linesLogged)
    (hbound : 0 < w.logger.m_logLimit → w.logger.m_linesLogged ≤ w.logger.m_logLimit) :
    -2147483648 ≤ (w.step op).logger.m_linesLogged ∧
    (0 < (w.step op).logger.m_logLimit →
      (w.step op).logger.m_linesLogged ≤ (w.step op).logger.m_logLimit) := by
  cases op with
  | log env level message =>
    have h := log_keeps_bound w.logger env level message hlo hbound
    refine ⟨h.2.1, ?_⟩
    show 0 < (w.logger.log env level message).logger.m_logLimit →
      (w.logger.log env level message).logger.m_linesLogged
        ≤ (w.logger.log env level message).logger.m_logLimit
    rw [h.1]
    exact h.2.2
  | setLogLimit numLines =>
    have hc : numLines ≤ 0 ∨ w.logger.m_linesLogged ≤ numLines := by
      simpa [World.limitsCoverCount] using hcover
    refine ⟨hlo, ?_⟩
    show 0 < numLines → w.logger.m_linesLogged ≤ numLines
    intro hpos
    rcases hc with h | h
    · omega
    · exact h
  | setLogThreshold level => exact ⟨hlo, hbound⟩
  | setLogToConsole enabled => exact ⟨hlo, hbound⟩
  | setLogPath env dir filename => exact ⟨hlo, hbound⟩

/-- A sequence of calls keeps the bound, if none of its `setLogLimit` calls sets a positive
limit below the number of lines logged at the time. -/
theorem run_keeps_bound (ops : List Op) :
    ∀ (w : World), w.limitsCoverCount ops = true →
      -2147483648 ≤ w.logger.m_linesLogged →
      (0 < w.logger.m_logLimit → w.logger.m_linesLogged ≤ w.logger.m_logLimit) →
      -2147483648 ≤ (w.run ops).logger.m_linesLogged ∧
      (0 < (w.run ops).logger.m_logLimit →
        (w.run ops).logger.m_linesLogged ≤ (w.run ops).logger.m_logLimit) := by
  induction ops with
  | nil =>
    intro w _ hlo hbound
    exact ⟨hlo, hbound⟩
  | cons op rest ih =>
    intro w hcover hlo hbound
    have hsplit : w.limitsCoverCount [op] = true ∧ (w.step op).limitsCoverCount rest = true := by
      simpa [World.limitsCoverCount] using hcover
    have hstep := step_keeps_bound w op hsplit.1 hlo hbound
    exact ih (w.step op) hsplit.2 hstep.1 hstep.2

/-! ### The line limit -/

/-- C3 (as stated, refuted): with limit 1, after one line is logged, a second passing call
whose `resize(0)` is refused leaves the first line in the file and does not write its
own. -/
theorem log_limit_no_truncation_when_resize_fails :
    testLogger.logFile.isOpen = true ∧ testLogger.logFile.content = "" ∧
    testLogger.m_linesLogged = 0 ∧
    ((testLogger.setLogLimit 1).logAll [(noon, .DEBUG, "first")]).logFile.content
      = "[12:00:00] [DEBUG]    first\n" ∧
    ((((testLogger.setLogLimit 1).logAll [(noon, .DEBUG, "first")]).log
        noonResizeFails .DEBUG "second").logger.logFile.content
      = "[12:00:00] [DEBUG]    first\n") ∧
    ¬ ((((testLogger.setLogLimit 1).logAll [(noon, .DEBUG, "first")]).log
        noonResizeFails .DEBUG "second").logger.logFile.content
      = formatLine noonResizeFails .DEBUG "second") := by
  decide

/-- C3 (amended): for a limit `N` with `1 ≤ N` (an `int`), starting from an open Logger with
an empty file and `linesLogged = 0` and calling `setLogLimit(N)`, `N` passing `log` calls
leave exactly their `N` lines in the file, in call order; and if the `resize(0)` of the
`(N+1)`th passing call succeeds, that call leaves exactly its own line in the file and
`linesLogged = 1`. -/
theorem log_limit_truncates_when_resize_succeeds (N : Int) (fresh : Logger)
    (calls : List (LogEnv × LogLevel × String)) (env : LogEnv) (level : LogLevel)
    (message : String) (hN : 1 ≤ N) (hint : N < 2147483648)
    (hopen : fresh.logFile.isOpen = true) (hempty : fresh.logFile.content = "")
    (hzero : fresh.m_linesLogged = 0) (hcount : (calls.length : Int) = N)
    (hpass : ∀ c ∈ calls, fresh.m_logThreshold ≤ c.2.1)
    (hlast : fresh.m_logThreshold ≤ level) (hresize : env.resizeOk = true) :
    ((fresh.setLogLimit N).logAll calls).logFile.content = formatAll calls ∧
    ((fresh.setLogLimit N).logAll calls).m_linesLogged = N ∧
    (((fresh.setLogLimit N).logAll calls).log env level message).logger.logFile.content
      = formatLine env level message ∧
    (((fresh.setLogLimit N).logAll calls).log env level message).logger.m_linesLogged
      = 1 := by
  have hall := logAll_below_limit calls (fresh.setLogLimit N) hopen hpass
    (by show 0 ≤ fresh.m_linesLogged; omega)
    (by show fresh.m_linesLogged + (calls.length : Int) ≤ N; omega)
    hint
  have hlog := log_of_pass_at_limit ((fresh.setLogLimit N).logAll calls) env level message
    (by rw [hall]; exact hopen) (by rw [hall]; exact hlast)
    (by rw [hall]; show N ≠ 0; omega)
    (by rw [hall]; show N ≤ fresh.m_linesLogged + (calls.length : Int); omega)
    hresize
  refine ⟨?_, ?_, ?_, ?_⟩
  · rw [hall]
    show fresh.logFile.content ++ formatAll calls = formatAll calls
    rw [hempty, String.empty_append]
  · rw [hall]
    show fresh.m_linesLogged + (calls.length : Int) = N
    omega
  · rw [hlog]
  · rw [hlog]

theorem log_limit_truncates_when_resize_succeeds_witness :
    ((testLogger.setLogLimit 5).logAll fiveMessages).logFile.content
      = formatAll fiveMessages ∧
    ((testLogger.setLogLimit 5).logAll fiveMessages).m_linesLogged = 5 ∧
    (((testLogger.setLogLimit 5).logAll fiveMessages).log noon .DEBUG
        "post truncate ").logger.logFile.content
      = formatLine noon .DEBUG "post truncate " ∧
    (((testLogger.setLogLimit 5).logAll fiveMessages).log noon .DEBUG
        "post truncate ").logger.m_linesLogged = 1 :=
  log_limit_truncates_when_resize_succeeds 5 testLogger fiveMessages noon .DEBUG
    "post truncate " (by decide) (by decide) rfl rfl rfl rfl (by decide) (by decide) rfl

/-- C4 (as stated, refuted): a freshly constructed Logger that logs two lines and is then
given the limit 1 has `logLimit = 1 > 0` and `linesLogged = 2`. -/
theorem limit_bound_broken_by_setLogLimit :
    ((World.fresh noSettings .qtDefault testApp).run lowerLimitAfterTwoLines).logger.m_logLimit
      = 1 ∧
    ((World.fresh noSettings .qtDefault testApp).run lowerLimitAfterTwoLines).logger.m_linesLogged
      = 2 ∧
    ¬ (0 < ((World.fresh noSettings .qtDefault testApp).run
          lowerLimitAfterTwoLines).logger.m_logLimit →
        ((World.fresh noSettings .qtDefault testApp).run
          lowerLimitAfterTwoLines).logger.m_linesLogged
        ≤ ((World.fresh noSettings .qtDefault testApp).run
          lowerLimitAfterTwoLines).logger.m_logLimit) := by
  decide

/-- C4 (amended): in every state reached from a freshly constructed Logger by a sequence of
`log`, `setLogLimit`, `setLogThreshold`, `setLogToConsole` and `setLogPath` calls in which
no `setLogLimit(n)` call sets a positive limit `n` below the value `linesLogged` has at
that call, `logLimit > 0` implies `linesLogged ≤ logLimit`. -/
theorem limit_bound_of_covering_limits (settings : QSettings) (installed : QtMsgHandler)
    (env : CtorEnv) (ops : List Op)
    (hcover : (World.fresh settings installed env).limitsCoverCount ops = true)
    (hpos : 0 < ((World.fresh settings installed env).run ops).logger.m_logLimit) :
    ((World.fresh settings installed env).run ops).logger.m_linesLogged
      ≤ ((World.fresh settings installed env).run ops).logger.m_logLimit := by
  have hfresh0 : (World.fresh settings installed env).logger.m_linesLogged = 0 := by
    simp only [World.fresh, Logger.new, Logger.setLogPath]
  have hfreshLimit : (World.fresh settings installed env).logger.m_logLimit = 0 := by
    simp only [World.fresh, Logger.new, Logger.setLogPath]
  exact (run_keeps_bound ops (World.fresh settings installed env) hcover
    (by rw [hfresh0]; omega) (by rw [hfresh0, hfreshLimit]; omega)).2 hpos

theorem limit_bound_of_covering_limits_witness :
    ((World.fresh noSettings .qtDefault testApp).run limitThenThreeLines).logger.m_linesLogged
      ≤ ((World.fresh noSettings .qtDefault testApp).run limitThenThreeLines).logger.m_logLimit :=
  limit_bound_of_covering_limits noSettings .qtDefault testApp limitThenThreeLines
    (by decide) (by decide)

/-! ### Closed file, failed truncation -/

/-- C5: on a Logger whose file is not open, `log` changes nothing at all (no field of the
Logger, so neither the file nor `linesLogged`), sends nothing to the console and returns
normally; and after a `setLogPath` call whose directory could not be made or whose file
could not be opened the file is not open, so the same holds. -/
theorem log_on_closed_file_is_noop (self : Logger) (settings : QSettings) (fs : OpenEnv)
    (dir filename : String) (env : LogEnv) (level : LogLevel) (message : String) :
    (self.logFile.isOpen = false → self.log env level message = ⟨self, "", none⟩) ∧
    ((fs.dirExists = false ∧ fs.mkpathOk = false) ∨ fs.openOk = false →
      (self.setLogPath settings fs dir filename).1.logFile.isOpen = false ∧
      (self.setLogPath settings fs dir filename).1.log env level message
        = ⟨(self.setLogPath settings fs dir filename).1, "", none⟩) := by
  refine ⟨log_of_closed self env level message, ?_⟩
  intro hfail
  have hnot : fs.opens = false := by
    unfold OpenEnv.opens
    rcases hfail with ⟨hd, hm⟩ | ho
    · simp [hd, hm]
    · simp [ho]
  have hclosed : (self.setLogPath settings fs dir filename).1.logFile.isOpen = false := by
    unfold Logger.setLogPath
    by_cases hopen : self.logFile.isOpen = true <;> simp [hnot, hopen]
  exact ⟨hclosed, log_of_closed _ env level message hclosed⟩

theorem log_on_closed_file_is_noop_witness :
    ((testLogger.setLogPath noSettings readOnlyDisk "/var/log" "app.log").1.log
        noon .CRITICAL "lost" =
      ⟨(testLogger.setLogPath noSettings readOnlyDisk "/var/log" "app.log").1, "", none⟩) ∧
    ((testLogger.setLogPath noSettings noDirectory "/var/log" "app.log").1.logFile.isOpen
      = false ∧
     (testLogger.setLogPath noSettings noDirectory "/var/log" "app.log").1.log
        noon .CRITICAL "lost" =
      ⟨(testLogger.setLogPath noSettings noDirectory "/var/log" "app.log").1, "", none⟩) :=
  ⟨(log_on_closed_file_is_noop
      (testLogger.setLogPath noSettings readOnlyDisk "/var/log" "app.log").1 noSettings
      readOnlyDisk "/var/log" "app.log" noon .CRITICAL "lost").1 (by decide),
   (log_on_closed_file_is_noop testLogger noSettings noDirectory "/var/log" "app.log"
      noon .CRITICAL "lost").2 (Or.inl ⟨rfl, rfl⟩)⟩

/-- C9: when a `log` call finds the line limit reached (`logLimit > 0` and
`linesLogged ≥ logLimit`) and `resize(0)` fails, the call changes nothing: the Logger (file
content, `linesLogged`, every other field) is as before, nothing goes to the console, and
the call returns normally. -/
theorem log_aborts_when_truncation_fails (self : Logger) (env : LogEnv) (level : LogLevel)
    (message : String) (hlimit : 0 < self.m_logLimit)
    (hreached : self.m_logLimit ≤ self.m_linesLogged) (hresize : env.resizeOk = false) :
    self.log env level message = ⟨self, "", none⟩ :=
  log_of_resize_failure self env level message (by omega) hreached hresize

theorem log_aborts_when_truncation_fails_witness :
    fullLogger.logFile.isOpen = true ∧ fullLogger.m_logThreshold ≤ LogLevel.DEBUG ∧
    fullLogger.log noonResizeFails .DEBUG "post truncate " = ⟨fullLogger, "", none⟩ :=
  ⟨rfl, by decide,
   log_aborts_when_truncation_fails fullLogger noonResizeFails .DEBUG "post truncate "
    (by decide) (by decide) rfl⟩

/-! ### The level `NONE` -/

/-- C6 (the code at the failing input): with the threshold `NONE` and the file open, a
message of level `NONE` is not filtered: its line, without a label, is written to the
file and counted. -/
theorem threshold_NONE_passes_level_NONE :
    silencedLogger.m_logThreshold = .NONE ∧
    (silencedLogger.log noon .NONE "x").logger.logFile.content = "[12:00:00] x\n" ∧
    (silencedLogger.log noon .NONE "x").logger.logFile.content
      ≠ silencedLogger.logFile.content ∧
    (silencedLogger.log noon .NONE "x").logger.m_linesLogged = 1 := by
  decide

/-- C7 (the code at the failing input): with the default threshold `WARNING`, the file open
and `LOG_COLOR` set, a message of level `NONE` passes the threshold check: its line is
written to the file and to the console, it is counted, and the colour table, which has
four entries, is read at index 4. -/
theorem level_NONE_reaches_formatting :
    ¬ (LogLevel.NONE < warningLogger.m_logThreshold) ∧
    (warningLogger.log noonColour .NONE "x").logger.logFile.content = "[12:00:00] x\n" ∧
    (warningLogger.log noonColour .NONE "x").logger.m_linesLogged = 1 ∧
    (warningLogger.log noonColour .NONE "x").cerr ≠ "" ∧
    (warningLogger.log noonColour .NONE "x").colIndex = some 4 ∧
    col.length = 4 ∧ col.get? 4 = none := by
  decide

/-! ### Persistence of the threshold -/

/-- C8: for every level `L`, `setLogThreshold(L)` stores the name of `L` under
`log_threshold`, and a Logger constructed from the settings it leaves has
`logThreshold() == L`, whatever the file system does at construction. -/
theorem threshold_persists_across_construction (self : Logger) (settings : QSettings)
    (L : LogLevel) (installed : QtMsgHandler) (env : CtorEnv) :
    (self.setLogThreshold settings L).2.log_threshold = some (thresholdName L) ∧
    (Logger.new (self.setLogThreshold settings L).2 installed env).1.logThreshold = L := by
  refine ⟨rfl, ?_⟩
  cases L <;>
    simp [Logger.new, Logger.setLogThreshold, Logger.logThreshold, thresholdName, comp,
      decodeLoop, LogLevel.ofNat?]

/-! ### The singleton -/

/-- C10: `close()` is idempotent on the process state: closing twice gives the state of
closing once; after it no instance exists; with no instance to begin with it changes
nothing; and with an instance the destructor leaves the file closed and puts the earlier
message handler back. -/
theorem close_is_idempotent (p : Process) :
    Logger.close (Logger.close p) = Logger.close p ∧
    (Logger.close p)._instance = none ∧
    (match p._instance with
      | none => Logger.close p = p
      | some l =>
        l.destructor.1.logFile.isOpen = false ∧ (Logger.close p).msgHandler = l.oldHandler) := by
  obtain ⟨inst, settings, handler, cerr⟩ := p
  cases inst with
  | none => exact ⟨rfl, rfl, rfl⟩
  | some l =>
    refine ⟨rfl, rfl, ?_, rfl⟩
    unfold Logger.destructor
    by_cases hopen : l.logFile.isOpen = true <;> simp [hopen]

/-- C11: two successive `instance()` calls with no `close()` between them leave the same
instance in place and construct at most one Logger between them; and when no instance
exists, before first use or after `close()`, `instance()` constructs a Logger with
`logToConsole = true`, `logLimit = 0` and `linesLogged = 0`, whatever the closed instance
held. -/
theorem instance_is_single_and_fresh (p : Process) (env1 env2 : CtorEnv) :
    Logger.instance_ (Logger.instance_ p env1) env2 = Logger.instance_ p env1 ∧
    Logger.instanceConstructs p + Logger.instanceConstructs (Logger.instance_ p env1) ≤ 1 ∧
    (p._instance = none →
      ∃ l, (Logger.instance_ p env1)._instance = some l ∧
        l.logToConsole = true ∧ l.logLimit = 0 ∧ l.m_linesLogged = 0) ∧
    (∃ l, (Logger.instance_ (Logger.close p) env1)._instance = some l ∧
        l.logToConsole = true ∧ l.logLimit = 0 ∧ l.m_linesLogged = 0) := by
  obtain ⟨inst, settings, handler, cerr⟩ := p
  cases inst with
  | none =>
    refine ⟨rfl, Nat.le_refl 1, fun _ => ⟨_, rfl, ?_, ?_, ?_⟩, ⟨_, rfl, ?_, ?_, ?_⟩⟩ <;>
      simp only [Logger.new, Logger.setLogPath, Logger.logToConsole, Logger.logLimit]
  | some l =>
    refine ⟨rfl, Nat.le_refl 0 |>.trans (Nat.zero_le 1), fun h => ?_, ⟨_, rfl, ?_, ?_, ?_⟩⟩
    · exact absurd h (by simp)
    all_goals simp only [Logger.new, Logger.setLogPath, Logger.logToConsole, Logger.logLimit]

theorem instance_is_single_and_fresh_witness :
    (∃ l, (Logger.instance_ idleProcess testApp)._instance = some l ∧
        l.logToConsole = true ∧ l.logLimit = 0 ∧ l.m_linesLogged = 0) ∧
    (∃ l, (Logger.instance_ (Logger.close usedProcess) testApp)._instance = some l ∧
        l.logToConsole = true ∧ l.logLimit = 0 ∧ l.m_linesLogged = 0) :=
  ⟨(instance_is_single_and_fresh idleProcess testApp testApp).2.2.1 rfl,
   (instance_is_single_and_fresh usedProcess testApp testApp).2.2.2⟩

/-! ### Console echo and the line limit setter -/

/-- The file a `log` call leaves does not depend on the console flag, and with the flag off
the call sends nothing to the console. -/
theorem log_console_flag (self : Logger) (b : Bool) (env : LogEnv) (level : LogLevel)
    (message : String) :
    ((self.setLogToConsole b).log env level message).logger.logFile
      = (self.log env level message).logger.logFile ∧
    ((self.setLogToConsole false).log env level message).cerr = "" := by
  unfold Logger.log Logger.setLogToConsole
  by_cases hopen : self.logFile.isOpen = true
  · by_cases hlt : level < self.m_logThreshold
    · simp [hopen, hlt]
    · by_cases htrunc : self.m_logLimit ≠ 0 ∧ self.m_linesLogged ≥ self.m_logLimit
      · by_cases hresize : env.resizeOk = true
        · simp [hopen, hlt, htrunc.1, htrunc.2, hresize]
        · simp [hopen, hlt, htrunc.1, htrunc.2, hresize]
      · have hbelow : self.m_logLimit = 0 ∨ self.m_linesLogged < self.m_logLimit := by
          by_cases h0 : self.m_logLimit = 0
          · exact Or.inl h0
          · exact Or.inr (not_le.mp fun h => htrunc ⟨h0, h⟩)
        simp [hopen, hlt, hbelow, htrunc]
  · simp [hopen]

/-- C12: a freshly constructed Logger has `logToConsole() == true`; after
`setLogToConsole(b)`, `logToConsole() == b`; and a `log` call made while the flag is false
sends no bytes to the console and leaves the file exactly as the same call with the flag
true leaves it. -/
theorem console_toggle (self : Logger) (settings : QSettings) (installed : QtMsgHandler)
    (cenv : CtorEnv) (b : Bool) (env : LogEnv) (level : LogLevel) (message : String) :
    (Logger.new settings installed cenv).1.logToConsole = true ∧
    (self.setLogToConsole b).logToConsole = b ∧
    ((self.setLogToConsole false).log env level message).cerr = "" ∧
    ((self.setLogToConsole false).log env level message).logger.logFile
      = ((self.setLogToConsole true).log env level message).logger.logFile := by
  refine ⟨?_, rfl, (log_console_flag self false env level message).2, ?_⟩
  · simp only [Logger.new, Logger.setLogPath, Logger.logToConsole]
  · rw [(log_console_flag self false env level message).1,
      (log_console_flag self true env level message).1]

/-- C13 (as stated, refuted): after `setLogLimit(-1)` on a Logger with one line logged,
`n > 0` is false, yet the next passing `log` call empties the file before it writes; and
after `setLogLimit(1)`, where `n > 0` and `linesLogged ≥ n` hold, a passing `log` call
whose `resize(0)` is refused leaves the file as it was. -/
theorem setLogLimit_truncation_is_not_iff_positive :
    ¬ ((0 : Int) < -1 ∧ usedLogger.m_linesLogged ≥ -1) ∧
    usedLogger.logFile.content = "old\n" ∧
    ((usedLogger.setLogLimit (-1)).log noon .DEBUG "x").logger.logFile.content
      = "[12:00:00] [DEBUG]    x\n" ∧
    ((0 : Int) < 1 ∧ usedLogger.m_linesLogged ≥ 1) ∧
    ((usedLogger.setLogLimit 1).log noonResizeFails .DEBUG "x").logger.logFile.content
      = "old\n" := by
  decide

/-- C13 (amended): `setLogLimit(n)` sets `logLimit()` to `n` and leaves the file,
`linesLogged`, the threshold and the console flag as they were (a fresh Logger has
`logLimit() == 0`); the next passing `log` call empties the file before writing exactly
when `n ≠ 0`, `linesLogged ≥ n` and its `resize(0)` succeeds; when `n ≠ 0`,
`linesLogged ≥ n` and the `resize(0)` fails the file stays as it was; otherwise the line is
appended to the content the file had. -/
theorem setLogLimit_takes_effect_at_next_log (self : Logger) (n : Int)
    (settings : QSettings) (installed : QtMsgHandler) (cenv : CtorEnv) (env : LogEnv)
    (level : LogLevel) (message : String) (hopen : self.logFile.isOpen = true)
    (hpass : self.m_logThreshold ≤ level) :
    (self.setLogLimit n).logLimit = n ∧
    (self.setLogLimit n).logFile = self.logFile ∧
    (self.setLogLimit n).m_linesLogged = self.m_linesLogged ∧
    (self.setLogLimit n).logThreshold = self.logThreshold ∧
    (self.setLogLimit n).logToConsole = self.logToConsole ∧
    (Logger.new settings installed cenv).1.logLimit = 0 ∧
    (n ≠ 0 ∧ n ≤ self.m_linesLogged → env.resizeOk = true →
      ((self.setLogLimit n).log env level message).logger.logFile.content
        = formatLine env level message ∧
      ((self.setLogLimit n).log env level message).logger.m_linesLogged = 1) ∧
    (n ≠ 0 ∧ n ≤ self.m_linesLogged → env.resizeOk = false →
      ((self.setLogLimit n).log env level message).logger.logFile.content
        = self.logFile.content ∧
      ((self.setLogLimit n).log env level message).logger.m_linesLogged
        = self.m_linesLogged) ∧
    (¬ (n ≠ 0 ∧ n ≤ self.m_linesLogged) →
      ((self.setLogLimit n).log env level message).logger.logFile.content
        = self.logFile.content ++ formatLine env level message) := by
  refine ⟨rfl, rfl, rfl, rfl, rfl, ?_, ?_, ?_, ?_⟩
  · simp only [Logger.new, Logger.setLogPath, Logger.logLimit]
  · intro hdue hresize
    rw [log_of_pass_at_limit (self.setLogLimit n) env level message hopen hpass hdue.1
      hdue.2 hresize]
    exact ⟨rfl, rfl⟩
  · intro hdue hresize
    rw [log_of_resize_failure (self.setLogLimit n) env level message hdue.1 hdue.2 hresize]
    exact ⟨rfl, rfl⟩
  · intro hnot
    have hbelow : (self.setLogLimit n).m_logLimit = 0
        ∨ (self.setLogLimit n).m_linesLogged < (self.setLogLimit n).m_logLimit := by
      by_cases h0 : n = 0
      · exact Or.inl h0
      · exact Or.inr (not_le.mp fun h => hnot ⟨h0, h⟩)
    rw [log_of_pass_below_limit (self.setLogLimit n) env level message hopen hpass hbelow]
    rfl

theorem setLogLimit_takes_effect_at_next_log_witness :
    ((usedLogger.setLogLimit (-1)).log noon .DEBUG "x").logger.logFile.content
        = formatLine noon .DEBUG "x" ∧
      ((usedLogger.setLogLimit (-1)).log noon .DEBUG "x").logger.m_linesLogged = 1 :=
  (setLogLimit_takes_effect_at_next_log usedLogger (-1) noSettings .qtDefault testApp noon
    .DEBUG "x" rfl (by decide)).2.2.2.2.2.2.1 (by decide) rfl

/-! ### The ambient message channel and the indentation counter -/

/-- C14: the constructor installs `logMessageHandler`; for every message type and text the
handler makes exactly one `log` call, at the level `DEBUG` for a debug message, `WARNING`
for a warning, `CRITICAL` for a critical and for a fatal message, with the text as given,
and it calls `quit()` only for a fatal message, after the `log` call. The `log` call is
`Logger::log` run once on the instance `instance()` returns, which always exists: the
process afterwards holds that Logger as `log` leaves it, with what `log` echoed added to
the console; so when the file is open, the level passes the threshold and no truncation is
due, the file gains exactly the one line of that level and text and `linesLogged` goes up
by one. -/
theorem handler_dispatches_once (p : Process) (settings : QSettings)
    (installed : QtMsgHandler) (cenv : CtorEnv) (env : LogEnv) (type : QtMsgType)
    (msg : String) :
    (Logger.new settings installed cenv).2.2 = .logMessageHandler ∧
    (Logger.logMessageHandler p cenv env type msg).calls
      = .log (specLevelOf type) msg :: (if type = .QtFatalMsg then [.quit] else []) ∧
    (∃ l, (Logger.instance_ p cenv)._instance = some l) ∧
    ∀ l, (Logger.instance_ p cenv)._instance = some l →
      (Logger.logMessageHandler p cenv env type msg).process
        = { Logger.instance_ p cenv with
            _instance := some (l.log env (specLevelOf type) msg).logger,
            cerr := (Logger.instance_ p cenv).cerr
              ++ (l.log env (specLevelOf type) msg).cerr } ∧
      (l.logFile.isOpen = true → l.m_logThreshold ≤ specLevelOf type →
        (l.m_logLimit = 0 ∨ l.m_linesLogged < l.m_logLimit) →
        (Logger.logMessageHandler p cenv env type msg).process._instance
          = some { l with
              logFile := { l.logFile with
                content := l.logFile.content ++ formatLine env (specLevelOf type) msg },
              m_linesLogged := wrapInt32 (l.m_linesLogged + 1) }) := by
  refine ⟨rfl, ?_, ?_, ?_⟩
  · cases type <;> rfl
  · obtain ⟨inst, stored, handler, cerr⟩ := p
    cases inst with
    | none => exact ⟨_, rfl⟩
    | some l => exact ⟨l, rfl⟩
  · intro l hl
    have hprocess : (Logger.logMessageHandler p cenv env type msg).process
        = { Logger.instance_ p cenv with
            _instance := some (l.log env (specLevelOf type) msg).logger,
            cerr := (Logger.instance_ p cenv).cerr
              ++ (l.log env (specLevelOf type) msg).cerr } := by
      cases type <;>
        simp only [Logger.logMessageHandler, HandlerResult.instanceLog, HandlerResult.quit,
          Logger.instanceLog, hl, specLevelOf]
    refine ⟨hprocess, fun hopen hpass hlimit => ?_⟩
    rw [hprocess]
    show some _ = some _
    rw [log_of_pass_below_limit l env (specLevelOf type) msg hopen hpass hlimit]

theorem handler_dispatches_once_witness :
    (Logger.logMessageHandler usedProcess testApp noon .QtFatalMsg "boom").process._instance
      = some { usedLogger with
          logFile := { usedLogger.logFile with
            content := usedLogger.logFile.content
              ++ formatLine noon (specLevelOf .QtFatalMsg) "boom" },
          m_linesLogged := wrapInt32 (usedLogger.m_linesLogged + 1) } :=
  ((handler_dispatches_once usedProcess noSettings .qtDefault testApp noon .QtFatalMsg
      "boom").2.2.2 usedLogger rfl).2 rfl (by decide) (Or.inr (by decide))

/-- C15: after `reset()` the indentation is 0; one `push()` from 0 gives 2, the value of
`SPACES_PER_LEVEL`; and for every value of the 16-bit counter, `push()` followed by
`pop()` gives back the indentation there was before the push. -/
theorem indent_round_trip (numSpaces : Nat) (hrange : numSpaces < 65536) :
    Indent.getIndent (Indent.reset numSpaces) = 0 ∧
    Indent.getIndent (Indent.push (Indent.reset numSpaces)) = 2 ∧
    Indent.SPACES_PER_LEVEL = 2 ∧
    Indent.getIndent (Indent.pop (Indent.push numSpaces)) = Indent.getIndent numSpaces := by
  refine ⟨rfl, rfl, rfl, ?_⟩
  unfold Indent.getIndent Indent.pop Indent.push wrapUInt16 Indent.SPACES_PER_LEVEL
  omega

theorem indent_round_trip_witness :
    Indent.getIndent (Indent.reset 65535) = 0 ∧
    Indent.getIndent (Indent.push (Indent.reset 65535)) = 2 ∧
    Indent.SPACES_PER_LEVEL = 2 ∧
    Indent.getIndent (Indent.pop (Indent.push 65535)) = Indent.getIndent 65535 :=
  indent_round_trip 65535 (by decide)

/-! ### The counter and the file -/

/-- C17 (the code at the failing input): a freshly constructed Logger logs one line and is
then given another file by `setLogPath`, which opens; the new file is open and empty, and
`linesLogged` is still 1. -/
theorem setLogPath_keeps_linesLogged :
    ((World.fresh noSettings .qtDefault testApp).run logThenReopen).logger.logFile.isOpen
      = true ∧
    ((World.fresh noSettings .qtDefault testApp).run logThenReopen).logger.logFile.content
      = "" ∧
    ((World.fresh noSettings .qtDefault testApp).run logThenReopen).logger.m_linesLogged
      = 1 := by
  decide

/-! ### The number of lines under a fixed limit -/

theorem specLineCount_le_limit (N k : Nat) (hN : 1 ≤ N) : specLineCount N k ≤ N := by
  unfold specLineCount
  split
  · omega
  · have := Nat.mod_lt (k - 1) (show 0 < N by omega)
    omega

theorem specLineCount_le_calls (N k : Nat) : specLineCount N k ≤ k := by
  unfold specLineCount
  split
  · omega
  · have := Nat.mod_le (k - 1) N
    omega

/-- One more call either adds a line, below the limit, or starts again at one line. -/
theorem specLineCount_succ (N k : Nat) (hN : 1 ≤ N) :
    specLineCount N (k + 1) = if specLineCount N k < N then specLineCount N k + 1 else 1 := by
  cases k with
  | zero =>
    have h0 : specLineCount N 0 = 0 := rfl
    have h1 : specLineCount N 1 = 1 := by simp [specLineCount]
    rw [h0, h1, if_pos (by omega)]
  | succ j =>
    have hj : specLineCount N (j + 1) = j % N + 1 := by simp [specLineCount]
    have hj1 : specLineCount N (j + 1 + 1) = (j + 1) % N + 1 := by simp [specLineCount]
    have hlt := Nat.mod_lt j (show 0 < N by omega)
    have hmod : (j + 1) % N = (j % N + 1) % N := (Nat.mod_add_mod j N 1).symm
    rw [hj, hj1, hmod]
    by_cases hroom : j % N + 1 < N
    · rw [if_pos hroom, Nat.mod_eq_of_lt hroom]
    · have hfull : j % N + 1 = N := by omega
      rw [if_neg hroom, hfull, Nat.mod_self]

theorem logAll_append (xs ys : List (LogEnv × LogLevel × String)) :
    ∀ (self : Logger), self.logAll (xs ++ ys) = (self.logAll xs).logAll ys := by
  induction xs with
  | nil => intro self; rfl
  | cons c rest ih =>
    intro self
    obtain ⟨env, level, message⟩ := c
    exact ih _

theorem formatAll_append (xs ys : List (LogEnv × LogLevel × String)) :
    formatAll (xs ++ ys) = formatAll xs ++ formatAll ys := by
  induction xs with
  | nil => simp [formatAll]
  | cons c rest ih =>
    obtain ⟨env, level, message⟩ := c
    simp [formatAll, ih, String.append_assoc]

/-- Without a limit every passing call appends its line. -/
theorem logAll_without_limit (calls : List (LogEnv × LogLevel × String)) :
    ∀ (self : Logger), self.logFile.isOpen = true → self.m_logLimit = 0 →
      (∀ c ∈ calls, self.m_logThreshold ≤ c.2.1) →
      (self.logAll calls).logFile.content = self.logFile.content ++ formatAll calls := by
  induction calls with
  | nil =>
    intro self _ _ _
    simp [Logger.logAll, formatAll]
  | cons c rest ih =>
    intro self hopen hlimit hpass
    obtain ⟨env, level, message⟩ := c
    have hstep := log_of_pass_below_limit self env level message hopen
      (hpass _ (List.mem_cons_self _ _)) (Or.inl hlimit)
    have hrest := ih (self.log env level message).logger (by rw [hstep]; exact hopen)
      (by rw [hstep]; exact hlimit)
      (by rw [hstep]; exact fun c hc => hpass c (List.mem_cons_of_mem _ hc))
    simp only [Logger.logAll, formatAll]
    rw [hrest, hstep]
    simp only [String.append_assoc]

/-- Under a limit `N ≥ 1`, from an empty file and a zero counter, a run of passing calls
whose truncations succeed leaves the last `specLineCount N k` lines of its `k` calls. -/
theorem logAll_window (fresh : Logger) (N : Nat) (hN : 1 ≤ N) (hint : N < 2147483648)
    (hopen : fresh.logFile.isOpen = true) (hempty : fresh.logFile.content = "")
    (hzero : fresh.m_linesLogged = 0) (hlimit : fresh.m_logLimit = (N : Int))
    (calls : List (LogEnv × LogLevel × String)) :
    (∀ c ∈ calls, fresh.m_logThreshold ≤ c.2.1) →
    (∀ c ∈ calls, c.1.resizeOk = true) →
    (fresh.logAll calls).logFile.isOpen = true ∧
    (fresh.logAll calls).m_logThreshold = fresh.m_logThreshold ∧
    (fresh.logAll calls).m_logLimit = (N : Int) ∧
    (fresh.logAll calls).m_linesLogged = (specLineCount N calls.length : Int) ∧
    (fresh.logAll calls).logFile.content
      = formatAll (calls.drop (calls.length - specLineCount N calls.length)) := by
  induction calls using List.reverseRecOn with
  | nil =>
    intro _ _
    refine ⟨hopen, rfl, hlimit, ?_, ?_⟩
    · simpa [Logger.logAll, specLineCount] using hzero
    · simpa [Logger.logAll, formatAll] using hempty
  | append_singleton xs c ih =>
    intro hpass hresize
    obtain ⟨env, level, message⟩ := c
    obtain ⟨hopen', hthr', hlimit', hlines', hcontent'⟩ :=
      ih (fun c hc => hpass c (List.mem_append_left _ hc))
        (fun c hc => hresize c (List.mem_append_left _ hc))
    have hlast : fresh.m_logThreshold ≤ level :=
      hpass (env, level, message) (List.mem_append_right _ (List.mem_singleton_self _))
    have hok : env.resizeOk = true :=
      hresize (env, level, message) (List.mem_append_right _ (List.mem_singleton_self _))
    have hle := specLineCount_le_limit N xs.length hN
    have hlek := specLineCount_le_calls N xs.length
    have hsucc := specLineCount_succ N xs.length hN
    have hrun : fresh.logAll (xs ++ [(env, level, message)])
        = ((fresh.logAll xs).log env level message).logger := by
      rw [logAll_append]
      rfl
    rw [hrun, List.length_append, List.length_singleton]
    by_cases hroom : specLineCount N xs.length < N
    · rw [if_pos hroom] at hsucc
      rw [log_of_pass_below_limit (fresh.logAll xs) env level message hopen'
        (by rw [hthr']; exact hlast) (Or.inr (by rw [hlines', hlimit']; omega))]
      refine ⟨hopen', hthr', hlimit', ?_, ?_⟩
      · show wrapInt32 ((fresh.logAll xs).m_linesLogged + 1) = _
        rw [hlines', wrapInt32_of_inRange _ (by omega) (by omega), hsucc]
        push_cast
        rfl
      · show (fresh.logAll xs).logFile.content ++ formatLine env level message = _
        rw [hcontent', hsucc, Nat.add_sub_add_right,
          List.drop_append_of_le_length (Nat.sub_le _ _), formatAll_append]
        simp [formatAll]
    · rw [if_neg hroom] at hsucc
      rw [log_of_pass_at_limit (fresh.logAll xs) env level message hopen'
        (by rw [hthr']; exact hlast) (by rw [hlimit']; omega)
        (by rw [hlines', hlimit']; omega) hok]
      refine ⟨hopen', hthr', hlimit', ?_, ?_⟩
      · show (1 : Int) = _
        rw [hsucc]
        rfl
      · show formatLine env level message = _
        rw [hsucc, Nat.add_sub_cancel, List.drop_left]
        simp [formatAll]

/-- C18: from an open Logger with an empty file, `linesLogged = 0`, a fixed threshold and
a fixed limit `N`, with every truncation succeeding, `k ≥ 1` passing `log` calls leave in
the file: all `k` lines in call order when `N = 0`; and when `N ≥ 1` exactly the lines of
the last `((k - 1) mod N) + 1` calls, in call order, which is never more than `N` lines,
with `linesLogged` equal to that number. -/
theorem log_line_count_law (fresh : Logger) (N : Nat)
    (calls : List (LogEnv × LogLevel × String)) (hint : N < 2147483648)
    (hopen : fresh.logFile.isOpen = true) (hempty : fresh.logFile.content = "")
    (hzero : fresh.m_linesLogged = 0) (hlimit : fresh.m_logLimit = (N : Int))
    (hk : 1 ≤ calls.length)
    (hpass : ∀ c ∈ calls, fresh.m_logThreshold ≤ c.2.1)
    (hresize : ∀ c ∈ calls, c.1.resizeOk = true) :
    (N = 0 → (fresh.logAll calls).logFile.content = formatAll calls) ∧
    (1 ≤ N →
      (fresh.logAll calls).logFile.content
        = formatAll (calls.drop (calls.length - ((calls.length - 1) % N + 1))) ∧
      (calls.drop (calls.length - ((calls.length - 1) % N + 1))).length
        = (calls.length - 1) % N + 1 ∧
      (calls.length - 1) % N + 1 ≤ N ∧
      (fresh.logAll calls).m_linesLogged = (((calls.length - 1) % N + 1 : Nat) : Int)) := by
  have hcount : ∀ M : Nat, specLineCount M calls.length = (calls.length - 1) % M + 1 := by
    intro M
    unfold specLineCount
    rw [if_neg (by omega)]
  constructor
  · intro h0
    rw [logAll_without_limit calls fresh hopen (by rw [hlimit, h0]; rfl) hpass, hempty,
      String.empty_append]
  · intro hN
    obtain ⟨_, _, _, hlines, hcontent⟩ :=
      logAll_window fresh N hN hint hopen hempty hzero hlimit calls hpass hresize
    have hle := specLineCount_le_limit N calls.length hN
    have hlek := specLineCount_le_calls N calls.length
    rw [hcount N] at hlines hcontent hle hlek
    refine ⟨hcontent, ?_, hle, hlines⟩
    rw [List.length_drop]
    omega

theorem log_line_count_law_witness :
    ((testLogger.setLogLimit 5).logAll sevenMessages).logFile.content
        = formatAll (sevenMessages.drop
            (sevenMessages.length - ((sevenMessages.length - 1) % 5 + 1))) ∧
      (sevenMessages.drop
          (sevenMessages.length - ((sevenMessages.length - 1) % 5 + 1))).length
        = (sevenMessages.length - 1) % 5 + 1 ∧
      (sevenMessages.length - 1) % 5 + 1 ≤ 5 ∧
      ((testLogger.setLogLimit 5).logAll sevenMessages).m_linesLogged
        = (((sevenMessages.length - 1) % 5 + 1 : Nat) : Int) :=
  (log_line_count_law (testLogger.setLogLimit 5) 5 sevenMessages (by decide) rfl rfl rfl rfl
    (by decide) (by decide) (by decide)).2 (by decide)

end LoggerModel
